import Mathlib

/-!
Verification of the argument normalization, validation and checker-listing
logic of `libscanbuild/arguments.py` (scan-build).

The Python `argparse.Namespace` produced by `create_analyze_parser` is
embedded as the record `ParsedArguments` (one field per `dest`, with the
parser's defaults as the natural "unset" values).  Process-terminating
control flow (`parser.exit`, `parser.error`) is represented by the sum type
`ValidateResult`.  Operating-system services used by the code —
`os.path.abspath`, `os.path.exists` — and the external collaborator
`libscanbuild.clang.get_checkers` are passed as function parameters, since
they live outside this module.  Printing to stdout is modelled by returning
the list of printed lines.
-/

/-- The parsed argument record produced by `create_analyze_parser` /
`create_default_parser`.  Field names follow the argparse `dest` names.
Optional fields whose argparse default is `None` are `Option`s; `plugins`
is an `Option (List String)` because `--load-plugin` has no default (it is
`None` until the flag first occurs), and likewise for the two
comma-accumulated checker lists. -/
structure ParsedArguments where
  verbose : Nat
  cdb : String
  status_bugs : Bool
  excludes : List String
  output : String
  keep_empty : Bool
  html_title : Option String
  output_format : String
  clang : String
  output_failures : Bool
  analyze_headers : Bool
  stats : Bool
  internal_stats : Bool
  maxloop : Option Int
  store_model : Option String
  constraints_model : Option String
  analyzer_config : Option String
  force_debug : Bool
  plugins : Option (List String)
  enable_checker : Option (List String)
  disable_checker : Option (List String)
  help_checkers : Bool
  help_checkers_verbose : Bool
  deriving Repr, DecidableEq

attribute [ext] ParsedArguments

/-- Embedding of `normalize_args_for_analyze`.  The Python function mutates
`args` in place; here it returns the updated record.  `os.path.abspath` is
the parameter `abspath`.  The Python code builds
`set(os.path.abspath(entry) for entry in args.excludes)` and turns it back
into a list; a Python set keeps one copy of each element in an unspecified
order, which we embed as `List.dedup` of the mapped list (first-occurrence
order — one admissible order among the unspecified ones). -/
def normalize_args_for_analyze (abspath : String → String)
    (args : ParsedArguments) : ParsedArguments :=
  { args with
    plugins := some (args.plugins.getD [])
    excludes := (args.excludes.map abspath).dedup }

/-- A checker catalog entry: name, description, active flag.  The Python
code receives a `Dict[str, Tuple[str, bool]]`; we embed the dict as an
association list (unique keys in the intended inputs). -/
abbrev CheckerEntry := String × String × Bool

/-- The lexicographic string order used by Python's `sorted`, phrased on
the underlying character lists (equivalent to `String`'s `≤`, but
computable by evaluation). -/
def stringDataLE (a b : String) : Prop := a.data ≤ b.data

instance : DecidableRel stringDataLE :=
  fun a b => inferInstanceAs (Decidable (a.data ≤ b.data))

theorem stringDataLE_iff (a b : String) : stringDataLE a b ↔ a ≤ b := by
  rw [String.le_iff_toList_le]
  rfl

instance : IsTotal String stringDataLE :=
  ⟨fun a b => (le_total a b).imp (stringDataLE_iff a b).mpr
    (stringDataLE_iff b a).mpr⟩

instance : IsTrans String stringDataLE :=
  ⟨fun a b c hab hbc => (stringDataLE_iff a c).mpr
    (le_trans ((stringDataLE_iff a b).mp hab) ((stringDataLE_iff b c).mp hbc))⟩

/-- Embedding of `print_active_checkers`: the names of the active checkers,
sorted, one printed line per name. -/
def print_active_checkers (checkers : List CheckerEntry) : List String :=
  List.insertionSort stringDataLE
    ((checkers.filter (fun c => c.2.2)).map (fun c => c.1))

/-- Embedding of Python left-justified format padding `"\x7b: <w\x7d"`:
pad on the right with spaces to width `w` (no-op when already at least
that long). -/
def leftJustified (s : String) (width : Nat) : String :=
  s ++ String.mk (List.replicate (width - s.length) (Char.ofNat 32))

/-- The lines `print_checkers` emits for one checker entry: marker `+` when
active (space otherwise); a name longer than 30 characters puts the
description on its own line behind 35 spaces, otherwise name (padded to 30)
and description share one line. -/
def renderChecker (c : CheckerEntry) : List String :=
  let marker := if c.2.2 then "+" else " "
  if c.1.length > 30 then
    [" " ++ marker ++ " " ++ c.1,
     String.mk (List.replicate 35 (Char.ofNat 32)) ++ c.2.1]
  else
    [" " ++ marker ++ " " ++ leftJustified c.1 30 ++ "  " ++ c.2.1]

/-- Ordering of checker entries by name, matching Python's
`sorted(checkers.keys())` (the dict has unique keys, so sorting the
entries by key and then rendering each is the same as sorting the keys and
looking each one up). -/
def checkerKeyLE (a b : CheckerEntry) : Prop := stringDataLE a.1 b.1

instance : DecidableRel checkerKeyLE :=
  fun a b => inferInstanceAs (Decidable (stringDataLE a.1 b.1))

instance : IsTotal CheckerEntry checkerKeyLE :=
  ⟨fun a b => total_of stringDataLE a.1 b.1⟩

instance : IsTrans CheckerEntry checkerKeyLE :=
  ⟨fun _ _ _ hab hbc => trans_of stringDataLE hab hbc⟩

/-- Embedding of `print_checkers` (verbose listing): header, one or two
lines per checker in sorted-by-name order, trailing legend. -/
def print_checkers (checkers : List CheckerEntry) : List String :=
  ["", "available checkers:", ""] ++
    (List.insertionSort checkerKeyLE checkers).flatMap renderChecker ++
    ["", "NOTE: \"+\" indicates that an analysis is enabled by default.", ""]

/-- Outcome of `validate_args_for_analyze`.  `exit_with_output` embeds
`parser.exit(status=0)` after printing the given lines; `usage_error`
embeds `parser.error(message=...)`, which in argparse prints a usage
message and exits the process with status 2; `accepted` is the fall-through
return, handing the arguments back unchanged. -/
inductive ValidateResult where
  | exit_with_output (lines : List String) (status : Nat)
  | usage_error (message : String)
  | accepted (args : ParsedArguments)
  deriving Repr, DecidableEq

/-- Process exit status of each validation outcome: `none` means the
process continues (arguments accepted); `parser.error` exits with argparse's
conventional usage-error status 2. -/
def ValidateResult.exitStatus : ValidateResult → Option Nat
  | .exit_with_output _ s => some s
  | .usage_error _ => some 2
  | .accepted _ => none

/-- Embedding of `validate_args_for_analyze`.  `get_checkers` stands for
`libscanbuild.clang.get_checkers` (external collaborator, keyed by the
analyzer path and plugin list); `path_exists` stands for
`os.path.exists`. -/
def validate_args_for_analyze
    (get_checkers : String → Option (List String) → List CheckerEntry)
    (path_exists : String → Bool)
    (args : ParsedArguments) : ValidateResult :=
  if args.help_checkers_verbose then
    ValidateResult.exit_with_output
      (print_checkers (get_checkers args.clang args.plugins)) 0
  else if args.help_checkers then
    ValidateResult.exit_with_output
      (print_active_checkers (get_checkers args.clang args.plugins)) 0
  else if !path_exists args.cdb then
    ValidateResult.usage_error "compilation database is missing"
  else
    ValidateResult.accepted args

/-- Embedding of Python's `str.split(sep)` for a one-character separator,
on the character list: every separator occurrence cuts, empty segments are
kept, the empty string yields one empty segment. -/
def splitCharList (sep : Char) : List Char → List (List Char)
  | [] => [[]]
  | c :: rest =>
    if c = sep then [] :: splitCharList sep rest
    else
      match splitCharList sep rest with
      | [] => [[c]]
      | seg :: segs => (c :: seg) :: segs

/-- Embedding of Python's `values.split(',')`. -/
def split_on_comma (value : String) : List String :=
  (splitCharList (Char.ofNat 44) value.data).map String.mk

/-- Embedding of one invocation of `AppendCommaSeparated.__call__`: the
current attribute value (`None` before the first occurrence), extended by
the flag value split on commas. -/
def append_comma_separated (cur : Option (List String)) (value : String) :
    List String :=
  cur.getD [] ++ split_on_comma value

/-- The attribute value after argparse has invoked `AppendCommaSeparated`
once per occurrence, in order, starting from the `None` default. -/
def accumulate_comma_separated (occurrences : List String) :
    Option (List String) :=
  occurrences.foldl (fun cur v => some (append_comma_separated cur v)) none

/-- The four values the `output_format` dest can take: the shared argparse
default `html` and the three `store_const` constants. -/
def output_format_values : List String :=
  ["html", "plist", "plist-html", "plist-multi-file"]

/-- The `store_const` constant attached to a format flag, `none` for a
token that is not one of the six format option strings.  `--plist` and
`-plist` are option strings of the same argparse action, and likewise for
the other two pairs. -/
def format_flag_const (flag : String) : Option String :=
  if flag = "--plist" ∨ flag = "-plist" then some "plist"
  else if flag = "--plist-html" ∨ flag = "-plist-html" then some "plist-html"
  else if flag = "--plist-multi-file" ∨ flag = "-plist-multi-file" then
    some "plist-multi-file"
  else none

/-- Argparse's processing of a sequence of format-flag tokens within the
mutually exclusive group of `create_analyze_parser`: each recognized flag
stores its constant into `output_format`; a flag whose action differs from
an action already seen in the group is a usage error (repeating the same
action is allowed).  `fmt` is the current dest value, `seen` the constant
of the group action already encountered, if any. -/
def run_format_group : List String → String → Option String →
    Except String String
  | [], fmt, _ => Except.ok fmt
  | flag :: rest, _, seen =>
    match format_flag_const flag with
    | none => Except.error ("unrecognized arguments: " ++ flag)
    | some c =>
      match seen with
      | none => run_format_group rest c (some c)
      | some c0 =>
        if c0 = c then run_format_group rest c (some c)
        else Except.error ("argument " ++ flag ++
          ": not allowed with the previously given format flag")

/-- Parsing of the format flags of a command line: the dest starts at the
group's shared default `"html"` with no group action seen yet. -/
def parse_format_group (tokens : List String) : Except String String :=
  run_format_group tokens "html" none

/-- A `ParsedArguments` value holding exactly the defaults of
`create_analyze_parser` (with `/tmp` standing in for the machine's
`tempfile.gettempdir()`), used to instantiate universally quantified
theorems at a concrete input. -/
def sampleArgs : ParsedArguments where
  verbose := 0
  cdb := "compile_commands.json"
  status_bugs := false
  excludes := []
  output := "/tmp"
  keep_empty := false
  html_title := none
  output_format := "html"
  clang := "clang"
  output_failures := true
  analyze_headers := false
  stats := false
  internal_stats := false
  maxloop := none
  store_model := none
  constraints_model := none
  analyzer_config := none
  force_debug := false
  plugins := none
  enable_checker := none
  disable_checker := none
  help_checkers := false
  help_checkers_verbose := false

/-- C1: `validate_args_for_analyze` checks its conditions in strict order,
each short-circuiting the rest: verbose checker help prints the verbose
listing and exits with status 0; else checker help prints the active-only
listing and exits with status 0; else a non-existent compilation database
is a usage error (argparse exit status 2, non-zero); else the arguments
are accepted unchanged.  With no help flags and a missing database the
result is the usage error and neither a listing exit nor acceptance. -/
theorem C1_validate_short_circuit
    (gc : String → Option (List String) → List CheckerEntry)
    (pe : String → Bool) (args : ParsedArguments) :
    (args.help_checkers_verbose = true →
      validate_args_for_analyze gc pe args =
        ValidateResult.exit_with_output
          (print_checkers (gc args.clang args.plugins)) 0) ∧
    (args.help_checkers_verbose = false → args.help_checkers = true →
      validate_args_for_analyze gc pe args =
        ValidateResult.exit_with_output
          (print_active_checkers (gc args.clang args.plugins)) 0) ∧
    (args.help_checkers_verbose = false → args.help_checkers = false →
      pe args.cdb = false →
      validate_args_for_analyze gc pe args =
          ValidateResult.usage_error "compilation database is missing" ∧
        (validate_args_for_analyze gc pe args).exitStatus = some 2 ∧
        (validate_args_for_analyze gc pe args).exitStatus ≠ some 0 ∧
        (∀ lines s, validate_args_for_analyze gc pe args ≠
          ValidateResult.exit_with_output lines s) ∧
        (∀ a, validate_args_for_analyze gc pe args ≠
          ValidateResult.accepted a)) ∧
    (args.help_checkers_verbose = false → args.help_checkers = false →
      pe args.cdb = true →
      validate_args_for_analyze gc pe args =
        ValidateResult.accepted args) := by
  refine ⟨fun hv => ?_, fun hv hc => ?_, fun hv hc hcdb => ?_,
    fun hv hc hcdb => ?_⟩
  · simp [validate_args_for_analyze, hv]
  · simp [validate_args_for_analyze, hv, hc]
  · simp [validate_args_for_analyze, hv, hc, hcdb,
      ValidateResult.exitStatus]
  · simp [validate_args_for_analyze, hv, hc, hcdb]

/-- C1 witness: at the parser defaults with every path-existence query
answering false, validation is the usage error with non-zero status. -/
theorem C1_validate_short_circuit_witness :
    validate_args_for_analyze (fun _ _ => []) (fun _ => false) sampleArgs =
        ValidateResult.usage_error "compilation database is missing" ∧
      (validate_args_for_analyze (fun _ _ => []) (fun _ => false)
        sampleArgs).exitStatus = some 2 ∧
      (validate_args_for_analyze (fun _ _ => []) (fun _ => false)
        sampleArgs).exitStatus ≠ some 0 ∧
      (∀ lines s,
        validate_args_for_analyze (fun _ _ => []) (fun _ => false)
          sampleArgs ≠ ValidateResult.exit_with_output lines s) ∧
      (∀ a, validate_args_for_analyze (fun _ _ => []) (fun _ => false)
        sampleArgs ≠ ValidateResult.accepted a) :=
  (C1_validate_short_circuit (fun _ _ => []) (fun _ => false)
      sampleArgs).2.2.1 rfl rfl rfl

/-- C3: normalization turns an omitted plugin list (`None`) into the empty
list, leaves an explicitly given plugin list as given, and never leaves
the field `None`. -/
theorem C3_plugins_never_none (abspath : String → String)
    (args : ParsedArguments) :
    (normalize_args_for_analyze abspath args).plugins ≠ none ∧
    (args.plugins = none →
      (normalize_args_for_analyze abspath args).plugins = some []) ∧
    (∀ l, args.plugins = some l →
      (normalize_args_for_analyze abspath args).plugins = some l) := by
  refine ⟨?_, fun h => ?_, fun l h => ?_⟩
  · simp [normalize_args_for_analyze]
  · simp [normalize_args_for_analyze, h]
  · simp [normalize_args_for_analyze, h]

/-- C3 witness: concrete omitted and explicitly-given plugin lists. -/
theorem C3_plugins_never_none_witness :
    (normalize_args_for_analyze id sampleArgs).plugins = some [] ∧
    (normalize_args_for_analyze id
      { sampleArgs with plugins := some ["lib.so"] }).plugins =
        some ["lib.so"] :=
  ⟨(C3_plugins_never_none id sampleArgs).2.1 rfl,
   (C3_plugins_never_none id
      { sampleArgs with plugins := some ["lib.so"] }).2.2 ["lib.so"] rfl⟩

/-- Folding the accumulating action from an already-initialized list
appends the comma-split pieces of every further occurrence, in order. -/
theorem accumulate_from_some (cur : List String) :
    ∀ occurrences : List String,
      List.foldl (fun cur v => some (append_comma_separated cur v))
          (some cur) occurrences =
        some (cur ++ occurrences.flatMap split_on_comma)
  | [] => by simp
  | v :: os => by
    simp only [List.foldl_cons]
    rw [accumulate_from_some (append_comma_separated (some cur) v) os]
    simp [append_comma_separated, List.flatMap_cons]

/-- C4: the field built by `AppendCommaSeparated` is the ordered
concatenation of each occurrence's value split on commas:
`--enable-checker a,b --enable-checker c` yields `[a, b, c]`; each new
occurrence appends to (never replaces) the prior value, the first
occurrence starts from the empty list (the attribute default is `None`),
and empty comma-separated segments are preserved as empty strings. -/
theorem C4_append_comma_separated_accumulates :
    accumulate_comma_separated ["a,b", "c"] = some ["a", "b", "c"] ∧
    (∀ occurrences v,
      accumulate_comma_separated (occurrences ++ [v]) =
        some ((accumulate_comma_separated occurrences).getD [] ++
          split_on_comma v)) ∧
    (∀ occurrences, occurrences ≠ [] →
      accumulate_comma_separated occurrences =
        some (occurrences.flatMap split_on_comma)) ∧
    split_on_comma "a," = ["a", ""] ∧
    accumulate_comma_separated ["a,"] = some ["a", ""] := by
  refine ⟨by decide, fun occurrences v => ?_, fun occurrences h => ?_,
    by decide, by decide⟩
  · unfold accumulate_comma_separated
    rw [List.foldl_append]
    rfl
  · match occurrences, h with
    | v :: os, _ =>
      show List.foldl _ (some (append_comma_separated none v)) os = _
      rw [accumulate_from_some (append_comma_separated none v) os]
      simp [append_comma_separated, List.flatMap_cons]

/-- C4 witness: three occurrences with comma-separated values and a
trailing comma accumulate into the concatenated split pieces. -/
theorem C4_append_comma_separated_accumulates_witness :
    accumulate_comma_separated (["a,b", "c"] ++ ["d,"]) =
        some ((accumulate_comma_separated ["a,b", "c"]).getD [] ++
          split_on_comma "d,") ∧
    accumulate_comma_separated ["a,b", "c", "d,"] =
      some ((["a,b", "c", "d,"] : List String).flatMap split_on_comma) :=
  ⟨C4_append_comma_separated_accumulates.2.1 ["a,b", "c"] "d,",
   C4_append_comma_separated_accumulates.2.2.1 ["a,b", "c", "d,"]
     (by decide)⟩

/-- A constant stored by a format flag is one of the three non-default
output-format values, hence one of the four possible field values. -/
theorem format_flag_const_mem (flag c : String)
    (h : format_flag_const flag = some c) : c ∈ output_format_values := by
  unfold format_flag_const at h
  split_ifs at h <;> simp_all [output_format_values]

/-- Running the format group from a legal dest value can only end in a
legal dest value. -/
theorem run_format_group_ok_mem :
    ∀ (tokens : List String) (fmt : String) (seen : Option String)
      (res : String), fmt ∈ output_format_values →
      run_format_group tokens fmt seen = Except.ok res →
      res ∈ output_format_values
  | [], _, _, _, hf, h => by
    rw [run_format_group] at h
    cases h
    exact hf
  | flag :: rest, fmt, seen, res, _, h => by
    cases hc : format_flag_const flag with
    | none => simp only [run_format_group, hc, reduceCtorEq] at h
    | some c =>
      have hcm := format_flag_const_mem flag c hc
      cases seen with
      | none =>
        simp only [run_format_group, hc] at h
        exact run_format_group_ok_mem rest c (some c) res hcm h
      | some c0 =>
        by_cases he : c0 = c
        · simp only [run_format_group, hc, if_pos he] at h
          exact run_format_group_ok_mem rest c (some c) res hcm h
        · simp only [run_format_group, hc, if_neg he, reduceCtorEq] at h

/-- C5: the `output_format` dest always holds one of the four values
`html`, `plist`, `plist-html`, `plist-multi-file`; its default (no format
flag) is `html`; `--plist` parses to `plist`; and a second, different
format flag after `--plist` is rejected by the mutually exclusive group
instead of altering the value. -/
theorem C5_output_format_invariant :
    (∀ tokens res, parse_format_group tokens = Except.ok res →
      res ∈ output_format_values) ∧
    parse_format_group [] = Except.ok "html" ∧
    parse_format_group ["--plist"] = Except.ok "plist" ∧
    (∀ flag c, format_flag_const flag = some c → c ≠ "plist" →
      ∃ msg, parse_format_group ["--plist", flag] = Except.error msg) := by
  refine ⟨fun tokens res h => ?_, rfl, rfl, fun flag c hc hne => ?_⟩
  · exact run_format_group_ok_mem tokens "html" none res (by decide) h
  · refine ⟨"argument " ++ flag ++
      ": not allowed with the previously given format flag", ?_⟩
    have h1 : format_flag_const "--plist" = some "plist" := rfl
    show run_format_group ["--plist", flag] "html" none = _
    simp only [run_format_group, h1, hc]
    rw [if_neg (fun he : "plist" = c => hne he.symm)]

/-- C5 witness: a parsed `plist` is among the four legal values, and
`--plist` followed by `--plist-html` is a usage error. -/
theorem C5_output_format_invariant_witness :
    ("plist" ∈ output_format_values) ∧
    (∃ msg, parse_format_group ["--plist", "--plist-html"] =
      Except.error msg) :=
  ⟨C5_output_format_invariant.1 ["--plist"] "plist" rfl,
   C5_output_format_invariant.2.2.2 "--plist-html" "plist-html" rfl
     (by decide)⟩

/-- A POSIX-style absoluteness test (`os.path.isabs`): the path starts
with a slash.  Used to instantiate theorems that are parametric in the
notion of absoluteness guaranteed by `os.path.abspath`. -/
def isAbsolutePath (s : String) : Bool :=
  match s.data with
  | [] => false
  | c :: _ => c = Char.ofNat 47

/-- Prepending the absolute directory `"/cwd/"` yields an absolute path. -/
theorem isAbsolutePath_cwd_append (p : String) :
    isAbsolutePath ("/cwd/" ++ p) = true := by
  have h : ("/cwd/" ++ p).data = "/cwd/".data ++ p.data :=
    String.data_append "/cwd/" p
  simp only [isAbsolutePath, h]
  rfl

/-- A model of `os.path.abspath` for witnesses: an already absolute path is
kept, a relative one is resolved against the working directory `"/cwd"`.
(The real `os.path.abspath` also normalizes the path; the theorems that
use this model only rely on its output being absolute and on its
idempotence, which the real function shares.) -/
def abspathModel (p : String) : String :=
  if isAbsolutePath p then p else "/cwd/" ++ p

theorem abspathModel_absolute (p : String) :
    isAbsolutePath (abspathModel p) = true := by
  unfold abspathModel
  by_cases h : isAbsolutePath p
  · simp [h]
  · simp [h, isAbsolutePath_cwd_append]

theorem abspathModel_idem (p : String) :
    abspathModel (abspathModel p) = abspathModel p := by
  unfold abspathModel
  by_cases h : isAbsolutePath p
  · simp [h]
  · simp [h, isAbsolutePath_cwd_append]

/-- C2: for every exclude list (duplicates and relative paths allowed),
normalization replaces `excludes` by the distinct absolute resolutions of
its entries: every element is absolute (for whichever absoluteness
predicate `os.path.abspath` guarantees), no element repeats, the length is
the number of distinct resolutions, and the elements are exactly the
resolutions of the input entries. -/
theorem C2_excludes_unique_absolute (abspath : String → String)
    (isAbs : String → Bool) (habs : ∀ p, isAbs (abspath p) = true)
    (args : ParsedArguments) :
    (∀ x ∈ (normalize_args_for_analyze abspath args).excludes,
      isAbs x = true) ∧
    (normalize_args_for_analyze abspath args).excludes.Nodup ∧
    (normalize_args_for_analyze abspath args).excludes.length =
      (args.excludes.map abspath).toFinset.card ∧
    (∀ x, x ∈ (normalize_args_for_analyze abspath args).excludes ↔
      x ∈ args.excludes.map abspath) := by
  refine ⟨?_, ?_, ?_, ?_⟩
  · intro x hx
    simp only [normalize_args_for_analyze, List.mem_dedup,
      List.mem_map] at hx
    obtain ⟨p, _, rfl⟩ := hx
    exact habs p
  · exact List.nodup_dedup _
  · simp [normalize_args_for_analyze, List.card_toFinset]
  · intro x
    simp [normalize_args_for_analyze, List.mem_dedup]

/-- C2 witness: excludes `["a", "/cwd/a", "b"]` (a duplicate after
resolution, and relative entries) normalize to two distinct absolute
paths. -/
theorem C2_excludes_unique_absolute_witness :
    (∀ x ∈ (normalize_args_for_analyze abspathModel
        { sampleArgs with excludes := ["a", "/cwd/a", "b"] }).excludes,
      isAbsolutePath x = true) ∧
    (normalize_args_for_analyze abspathModel
      { sampleArgs with excludes := ["a", "/cwd/a", "b"] }).excludes.Nodup ∧
    (normalize_args_for_analyze abspathModel
        { sampleArgs with excludes := ["a", "/cwd/a", "b"] }).excludes.length =
      ((["a", "/cwd/a", "b"] : List String).map abspathModel).toFinset.card ∧
    (∀ x, x ∈ (normalize_args_for_analyze abspathModel
        { sampleArgs with excludes := ["a", "/cwd/a", "b"] }).excludes ↔
      x ∈ (["a", "/cwd/a", "b"] : List String).map abspathModel) :=
  C2_excludes_unique_absolute abspathModel isAbsolutePath
    abspathModel_absolute { sampleArgs with excludes := ["a", "/cwd/a", "b"] }

/-- Mapping a function that fixes every element of a list leaves the list
unchanged. -/
theorem map_eq_self_of_fixed {α : Type} {f : α → α} :
    ∀ l : List α, (∀ x ∈ l, f x = x) → l.map f = l
  | [], _ => rfl
  | a :: l, h => by
    simp only [List.map_cons, h a (List.mem_cons_self a l),
      map_eq_self_of_fixed l (fun x hx => h x (List.mem_cons_of_mem a hx))]

/-- C6: normalization is idempotent (using that `os.path.abspath` is
idempotent): normalizing an already-normalized record changes nothing. -/
theorem C6_normalize_idempotent (abspath : String → String)
    (hid : ∀ p, abspath (abspath p) = abspath p)
    (args : ParsedArguments) :
    normalize_args_for_analyze abspath
        (normalize_args_for_analyze abspath args) =
      normalize_args_for_analyze abspath args := by
  have hfix : ∀ x ∈ (args.excludes.map abspath).dedup, abspath x = x := by
    intro x hx
    rw [List.mem_dedup, List.mem_map] at hx
    obtain ⟨p, _, rfl⟩ := hx
    exact hid p
  have hmap : ((args.excludes.map abspath).dedup).map abspath =
      (args.excludes.map abspath).dedup :=
    map_eq_self_of_fixed _ hfix
  have hdd : ((args.excludes.map abspath).dedup).dedup =
      (args.excludes.map abspath).dedup :=
    List.dedup_eq_self.mpr (List.nodup_dedup _)
  unfold normalize_args_for_analyze
  simp only [Option.getD_some, hmap, hdd]

/-- C6 witness: idempotence at a concrete record with duplicate and
relative excludes, under the concrete abspath model. -/
theorem C6_normalize_idempotent_witness :
    normalize_args_for_analyze abspathModel
        (normalize_args_for_analyze abspathModel
          { sampleArgs with excludes := ["a", "/cwd/a", "b"] }) =
      normalize_args_for_analyze abspathModel
        { sampleArgs with excludes := ["a", "/cwd/a", "b"] } :=
  C6_normalize_idempotent abspathModel abspathModel_idem
    { sampleArgs with excludes := ["a", "/cwd/a", "b"] }

/-- C9: normalization mutates only the `plugins` and `excludes` fields;
every other field of the parsed-argument record is unchanged. -/
theorem C9_normalize_frame (abspath : String → String)
    (args : ParsedArguments) :
    (normalize_args_for_analyze abspath args).verbose = args.verbose ∧
    (normalize_args_for_analyze abspath args).cdb = args.cdb ∧
    (normalize_args_for_analyze abspath args).status_bugs =
      args.status_bugs ∧
    (normalize_args_for_analyze abspath args).output = args.output ∧
    (normalize_args_for_analyze abspath args).keep_empty =
      args.keep_empty ∧
    (normalize_args_for_analyze abspath args).html_title =
      args.html_title ∧
    (normalize_args_for_analyze abspath args).output_format =
      args.output_format ∧
    (normalize_args_for_analyze abspath args).clang = args.clang ∧
    (normalize_args_for_analyze abspath args).output_failures =
      args.output_failures ∧
    (normalize_args_for_analyze abspath args).analyze_headers =
      args.analyze_headers ∧
    (normalize_args_for_analyze abspath args).stats = args.stats ∧
    (normalize_args_for_analyze abspath args).internal_stats =
      args.internal_stats ∧
    (normalize_args_for_analyze abspath args).maxloop = args.maxloop ∧
    (normalize_args_for_analyze abspath args).store_model =
      args.store_model ∧
    (normalize_args_for_analyze abspath args).constraints_model =
      args.constraints_model ∧
    (normalize_args_for_analyze abspath args).analyzer_config =
      args.analyzer_config ∧
    (normalize_args_for_analyze abspath args).force_debug =
      args.force_debug ∧
    (normalize_args_for_analyze abspath args).enable_checker =
      args.enable_checker ∧
    (normalize_args_for_analyze abspath args).disable_checker =
      args.disable_checker ∧
    (normalize_args_for_analyze abspath args).help_checkers =
      args.help_checkers ∧
    (normalize_args_for_analyze abspath args).help_checkers_verbose =
      args.help_checkers_verbose :=
  ⟨rfl, rfl, rfl, rfl, rfl, rfl, rfl, rfl, rfl, rfl, rfl, rfl, rfl, rfl,
   rfl, rfl, rfl, rfl, rfl, rfl, rfl⟩

/-- C7: the active-only listing prints exactly the names whose active flag
is true, one line per name, sorted lexicographically, with no
descriptions; on the mapping of `core.A` (active) and a long inactive
checker it prints the single line `core.A`. -/
theorem C7_print_active_checkers_exact (checkers : List CheckerEntry) :
    (print_active_checkers checkers).Sorted (fun a b => a ≤ b) ∧
    (print_active_checkers checkers).Perm
      ((checkers.filter (fun c => c.2.2)).map (fun c => c.1)) ∧
    print_active_checkers
        [("core.A", "desc", true),
         ("core.VeryLongCheckerNameExceedingThirtyChars", "d2", false)] =
      ["core.A"] :=
  ⟨List.Pairwise.imp (fun hab => (stringDataLE_iff _ _).mp hab)
      (List.sorted_insertionSort stringDataLE _),
   List.perm_insertionSort _ _, by decide⟩

/-- C8: the verbose listing is a header, then every checker in
sorted-by-name order (the sorted entries are a permutation of the input,
and their name sequence is lexicographically sorted), each rendered with
its `+`/space marker and the one- or two-line layout of `renderChecker`,
then the trailing legend explaining the marker; on the two-checker example
mapping the exact output lines are as shown. -/
theorem C8_print_checkers_layout (checkers : List CheckerEntry) :
    print_checkers checkers =
        ["", "available checkers:", ""] ++
          (List.insertionSort checkerKeyLE checkers).flatMap renderChecker ++
          ["", "NOTE: \"+\" indicates that an analysis is enabled by default.",
           ""] ∧
    ((List.insertionSort checkerKeyLE checkers).map (fun c => c.1)).Sorted
      (fun a b => a ≤ b) ∧
    (List.insertionSort checkerKeyLE checkers).Perm checkers ∧
    print_checkers
        [("core.VeryLongCheckerNameExceedingThirtyChars", "d2", false),
         ("core.A", "desc", true)] =
      ["",
       "available checkers:",
       "",
       " + core.A                          desc",
       "   core.VeryLongCheckerNameExceedingThirtyChars",
       "                                   d2",
       "",
       "NOTE: \"+\" indicates that an analysis is enabled by default.",
       ""] := by
  refine ⟨rfl, ?_, List.perm_insertionSort _ _, by decide⟩
  exact List.pairwise_map.mpr
    (List.Pairwise.imp (fun hab => (stringDataLE_iff _ _).mp hab)
      (List.sorted_insertionSort checkerKeyLE checkers))

/-- The characters of a one-line checker entry that precede the
description: space, marker, space, the name left-justified to 30 columns,
two spaces. -/
def descColumnPad (c : CheckerEntry) : String :=
  " " ++ (if c.2.2 then "+" else " ") ++ " " ++ leftJustified c.1 30 ++ "  "

/-- C10: in the verbose listing the description always starts at character
column 36: for a name of at most 30 characters the single line consists of
35 characters (marker, padding, name) followed by the description, and for
a longer name the follow-up line is exactly 35 spaces followed by the
description; a name of exactly 30 characters still uses the single-line
form. -/
theorem C10_description_column (c : CheckerEntry) :
    (c.1.length ≤ 30 →
      renderChecker c = [descColumnPad c ++ c.2.1] ∧
        (descColumnPad c).length = 35) ∧
    (30 < c.1.length →
      renderChecker c =
          [" " ++ (if c.2.2 then "+" else " ") ++ " " ++ c.1,
           String.mk (List.replicate 35 (Char.ofNat 32)) ++ c.2.1] ∧
        (String.mk (List.replicate 35 (Char.ofNat 32))).length = 35) ∧
    (c.1.length = 30 → (renderChecker c).length = 1) := by
  obtain ⟨name, desc, active⟩ := c
  refine ⟨fun h => ?_, fun h => ?_, fun h => ?_⟩
  · have h' : name.length ≤ 30 := h
    have hn : ¬ name.length > 30 := by omega
    refine ⟨by simp [renderChecker, descColumnPad, hn], ?_⟩
    have hmarker : (if active = true then "+" else " ").length = 1 := by
      cases active <;> decide
    simp only [descColumnPad, leftJustified, String.length_append, hmarker]
    have hlen : (String.mk (List.replicate (30 - name.length)
        (Char.ofNat 32))).length = 30 - name.length := by
      show (List.replicate (30 - name.length) (Char.ofNat 32)).length = _
      simp
    rw [hlen]
    have h1 : (" " : String).length = 1 := rfl
    have h2 : ("  " : String).length = 2 := rfl
    rw [h1, h2]
    omega
  · have h' : 30 < name.length := h
    exact ⟨by simp [renderChecker, h'], by decide⟩
  · have h' : name.length = 30 := h
    have hn : ¬ name.length > 30 := by omega
    simp [renderChecker, hn]

/-- C10 witness: a 6-character name renders on one line with 35 characters
before the description, and a 44-character name puts the description after
exactly 35 spaces on its own line. -/
theorem C10_description_column_witness :
    (renderChecker ("core.A", "desc", true) =
        [descColumnPad ("core.A", "desc", true) ++ "desc"] ∧
      (descColumnPad ("core.A", "desc", true)).length = 35) ∧
    (renderChecker
        ("core.VeryLongCheckerNameExceedingThirtyChars", "d2", false) =
        [" " ++ (if false then "+" else " ") ++ " " ++
           "core.VeryLongCheckerNameExceedingThirtyChars",
         String.mk (List.replicate 35 (Char.ofNat 32)) ++ "d2"] ∧
      (String.mk (List.replicate 35 (Char.ofNat 32))).length = 35) :=
  ⟨(C10_description_column ("core.A", "desc", true)).1 (by decide),
   (C10_description_column
      ("core.VeryLongCheckerNameExceedingThirtyChars", "d2", false)).2.1
     (by decide)⟩
